import Mathlib

/-!
Verification of the git-credential-keepassxc helper (src/main.rs) against its
natural-language specification. The Rust code is shallowly embedded as pure
Lean functions: the peer (KeePassXC) is modelled by its observable responses,
passed as explicit inputs; stateful loops become fuel-indexed recursion;
fallible operations return `Except` / explicit outcome types; `unwrap` /
`unimplemented!` panics become an explicit `panicked` outcome constructor.
-/

namespace GitKpxc

/-- Modelled from the spec: the git credential message record (struct
`GitCredentialMessage` lives in git.rs, which is not part of src/); the field
set `protocol, host, path, url, username, password` is the one given in the
spec data model and the one manipulated in main.rs. -/
structure GitCredentialMessage where
  protocol : Option String
  host : Option String
  path : Option String
  url : Option String
  username : Option String
  password : Option String
deriving DecidableEq, Repr

/-- Modelled from the spec: a KeePassXC login entry as used by main.rs
(`LoginEntry` lives in keepassxc/, not in src/): login, password, uuid, an
optional list of string-field maps, and an optional expired flag. A string
field map is modelled as an association list. -/
structure LoginEntry where
  login : String
  password : String
  uuid : String
  string_fields : Option (List (List (String × String)))
  expired : Option Bool
deriving DecidableEq, Repr

/-- Modelled from the spec: a configured database association (config.rs is
not in src/): id, permanent key, target group name and uuid. -/
structure Database where
  id : String
  pkey : String
  group : String
  group_uuid : String
deriving DecidableEq, Repr

/-- Modelled from the spec: an allow-list entry (config.rs is not in src/):
executable path and optional uid/gid, absence meaning "any". -/
structure Caller where
  path : String
  uid : Option Nat
  gid : Option Nat
deriving DecidableEq, Repr

/-- Modelled from the spec: the persisted configuration as far as main.rs
reads it: ordered databases and ordered callers (config.rs is not in src/;
`count_callers`/`count_databases`/`get_callers`/`get_databases` are list
length and contents). -/
structure Config where
  databases : List Database
  callers : List Caller
deriving DecidableEq, Repr

/-- Typed failures surfaced by the helper's core operations (each corresponds
to an `anyhow!` error site in main.rs). -/
inductive HelperError
  | noMatchingLogin
  | missingUsername
  | missingPassword
  | storeFailed
  | setLoginRequestFailed
  | callerDenied
  | resolutionFailed
  | protocolHostRequired
deriving DecidableEq, Repr

/-- Lookup in a string-field map, embedding Rust `m.get(key)` on the
association list model. -/
def map_get (m : List (String × String)) (k : String) : Option String :=
  (m.find? (fun p => p.1 == k)).map (fun p => p.2)

/-- Embeds the predicate inside `filter_kph_logins` (main.rs 439-455): the
entry carries a string-field map whose key "KPH: git" maps to "false". -/
def has_kph_false (e : LoginEntry) : Bool :=
  match e.string_fields with
  | some fields =>
    (fields.find? (fun m =>
      match map_get m "KPH: git" with
      | some v => v == "false"
      | none => false)).isSome
  | none => false

/-- Embeds `filter_kph_logins` (main.rs 435-458): drops entries carrying the
"KPH: git" = "false" opt-out marker and counts how many were dropped. -/
def filter_kph_logins (l : List LoginEntry) : Nat × List LoginEntry :=
  match l with
  | [] => (0, [])
  | e :: rest =>
    let (k, kept) := filter_kph_logins rest
    if has_kph_false e then (k + 1, kept) else (k, e :: kept)

/-- Embeds the expired-entry filter of `get_logins_for` (main.rs 427-431):
keep an entry unless its expired flag is present and true. -/
def drop_expired (l : List LoginEntry) : List LoginEntry :=
  l.filter (fun e => !(e.expired == some true))

/-- Outcome of the `get` pipeline: a protocol response, a typed error, or an
abnormal termination (a Rust `unwrap` panic; unreachable in fact). -/
inductive GetResult
  | ok (resp : GitCredentialMessage)
  | err (e : HelperError)
  | panicked
deriving DecidableEq, Repr

/-- Observable outcome of `get_logins`: the result, the count of entries
excluded by the opt-out marker (logged), and whether the ambiguity warning
was emitted. -/
structure GetOutcome where
  result : GetResult
  kphExcluded : Nat
  ambiguityWarning : Bool
deriving DecidableEq, Repr

/-- Embeds the username-hint narrowing step of `get_logins` (main.rs 502-515):
filter the candidates by login equality with the hint, but keep the original
candidate set when that filter comes back empty. -/
def narrow_by_hint (entries : List LoginEntry) (username : String) : List LoginEntry :=
  if (entries.filter (fun (e : LoginEntry) => e.login == username)).isEmpty then entries
  else entries.filter (fun (e : LoginEntry) => e.login == username)

/-- Embeds the credential-resolution core of `get_logins` (main.rs 492-527),
from the point where the peer has returned `peerEntries` for the request's
URL: filter expired entries (in `get_logins_for`), filter and count opted-out
entries, error if nothing is left, narrow by the username hint only when that
narrowing is non-empty, warn when more than one candidate remains, and emit
the request with username/password overwritten by the first candidate. -/
def get_logins_core (git_req : GitCredentialMessage) (peerEntries : List LoginEntry) :
    GetOutcome :=
  let login_entries := drop_expired peerEntries
  let (kph_false, login_entries) := filter_kph_logins login_entries
  if login_entries.isEmpty then
    { result := .err .noMatchingLogin, kphExcluded := kph_false, ambiguityWarning := false }
  else
    let login_entries :=
      match git_req.username with
      | some username =>
        if 1 < login_entries.length then narrow_by_hint login_entries username
        else login_entries
      | none => login_entries
    let warn := 1 < login_entries.length
    match login_entries with
    | [] =>
      { result := .panicked, kphExcluded := kph_false, ambiguityWarning := warn }
    | login :: _ =>
      { result := .ok { git_req with
                        username := some login.login
                        password := some login.password },
        kphExcluded := kph_false, ambiguityWarning := warn }

/-- An outgoing SetLogin request as built by `store_login` (main.rs 600-628):
url, submit url, database id, login, password, optional group name/uuid, and
the optional uuid of an existing entry to update in place. -/
structure SetLoginRequest where
  url : String
  submit_url : String
  database_id : String
  login : String
  password : String
  group : Option String
  group_uuid : Option String
  uuid : Option String
deriving DecidableEq, Repr

/-- Modelled from the spec: the SetLogin response fields `store_login` reads
(the response struct lives in keepassxc/, not in src/): an optional success
flag, an optional error string, an optional error code. -/
structure SetLoginResponse where
  success : Option Bool
  error : Option String
  error_code : Option String
deriving DecidableEq, Repr

/-- Outcome of the `store` pipeline: success, a typed error, or an abnormal
termination (`unimplemented!` or an `unwrap` panic). -/
inductive StoreResult
  | ok
  | err (e : HelperError)
  | panicked
deriving DecidableEq, Repr

/-- True exactly on the typed-error outcomes, i.e. failures propagated to the
caller as `Result::Err`. -/
def StoreResult.isTypedErr : StoreResult → Bool
  | .err _ => true
  | _ => false

/-- Embeds the SetLogin response interpretation of `store_login`
(main.rs 630-650): success iff the success flag is present and true and the
error field is absent, empty, or "success"; a missing success flag is the
distinct failure `setLoginRequestFailed`. -/
def interpret_sl_response (resp : SetLoginResponse) : StoreResult :=
  match resp.success with
  | some s =>
    if s && (resp.error == none || resp.error == some "" || resp.error == some "success") then
      .ok
    else
      .err .storeFailed
  | none => .err .setLoginRequestFailed

/-- Embeds the resolver query of `store_login` (main.rs 548-573): the entries
the peer returned for the URL, minus expired ones (`get_logins_for`), minus
opted-out ones, restricted to those whose login equals the request username;
returns the opt-out count alongside. -/
def resolve_for_store (peerEntries : List LoginEntry) (username : String) :
    Nat × List LoginEntry :=
  let entries := drop_expired peerEntries
  let (kph_false, entries) := filter_kph_logins entries
  (kph_false, entries.filter (fun (e : LoginEntry) => e.login == username))

/-- Embeds the credential-upsert core of `store_login` (main.rs 541-651),
from the point where the session is up. `peerEntries` is `none` when the
GetLogins round-trip itself failed (then the create path is taken, as the
`and_then` chain collapses any error into "no existing logins"); `slResp`
gives the peer's response to the SetLogin request that is sent. Returns the
outcome together with the list of SetLogin writes issued. -/
def store_core (git_req : GitCredentialMessage) (url : String)
    (peerEntries : Option (List LoginEntry)) (databases : List Database)
    (slResp : SetLoginRequest → SetLoginResponse) :
    StoreResult × List SetLoginRequest :=
  match git_req.username with
  | none => (.err .missingUsername, [])
  | some username =>
    match git_req.password with
    | none => (.err .missingPassword, [])
    | some password =>
      let login_entries : Option (List LoginEntry) :=
        match peerEntries with
        | none => none
        | some entries =>
          let entries := (resolve_for_store entries username).2
          if entries.isEmpty then none else some entries
      match login_entries with
      | some entries =>
        match entries with
        | [] => (.panicked, [])
        | login_entry :: _ =>
          if login_entry.login == username && login_entry.password == password then
            (.ok, [])
          else if 1 < databases.length then
            (.panicked, [])
          else
            match databases with
            | [] => (.panicked, [])
            | database :: _ =>
              let req : SetLoginRequest :=
                { url := url, submit_url := url, database_id := database.id
                  login := username, password := password
                  group := some database.group, group_uuid := some database.group_uuid
                  uuid := some login_entry.uuid }
              (interpret_sl_response (slResp req), [req])
      | none =>
        match databases with
        | [] => (.panicked, [])
        | database :: _ =>
          let req : SetLoginRequest :=
            { url := url, submit_url := url, database_id := database.id
              login := username, password := password
              group := some database.group, group_uuid := some database.group_uuid
              uuid := none }
          (interpret_sl_response (slResp req), [req])

/-- Identity of a process as the platform capability reports it: executable
path and owning uid/gid (sysinfo `Process::exe`, `uid`, `gid` on unix). -/
structure ProcIdentity where
  path : String
  uid : Nat
  gid : Nat
deriving DecidableEq, Repr

/-- Result of caller verification (Rust `Result<Option<(usize, PathBuf)>>`,
with the accepted parent identity in the success payload). -/
inductive VerifyResult
  | ok (accepted : Option ProcIdentity)
  | err (e : HelperError)
deriving DecidableEq, Repr

/-- The per-entry match test of `verify_caller` (main.rs 391-395): the
entry's path is compared with the parent process's path (`ppath`), while the
optional uid/gid are compared with `proc.uid`/`proc.gid` — the fields of the
helper's own current process, not the parent's. -/
def caller_matches (proc pproc : ProcIdentity) (c : Caller) : Bool :=
  c.path == pproc.path
    && (c.uid.map (fun id => id == proc.uid)).getD true
    && (c.gid.map (fun id => id == proc.gid)).getD true

/-- Embeds `verify_caller` (main.rs 363-407, unix variant). The process-table
lookups are abstracted as the two `Option ProcIdentity` inputs: `currentProc`
is the helper's own process (whose uid/gid the filter reads), `parentProc`
the parent process (whose path the filter reads); `none` models a failed
lookup. `strictCaller` is the compile-time strict-caller feature flag.
Success carries the accepted parent identity (or `none` when verification was
skipped in the bootstrap state). -/
def verify_caller (strictCaller : Bool) (config : Config)
    (currentProc parentProc : Option ProcIdentity) : VerifyResult :=
  if config.callers.length = 0 &&
      (!strictCaller || config.databases.length = 0) then
    .ok none
  else
    match currentProc, parentProc with
    | some proc, some pproc =>
      if (config.callers.filter (caller_matches proc pproc)).isEmpty then
        .err .callerDenied
      else .ok (some pproc)
    | _, _ => .err .resolutionFailed

/-- What the process does at top level, observable from outside: its exit
code and the error line (message plus root cause) written to the log sink.
Modelled from the spec: the log sink is stderr (log formatting and its
destination are set up by the slog crates, outside src/). -/
structure ProcessOutcome where
  exitCode : Nat
  stderrLog : Option String
deriving DecidableEq, Repr

/-- Embeds `main` (main.rs 743-751): run `real_main`; on error, log the error
and its root cause (source, or "N/A" when absent) and fall off the end of
`main` — there is no exit-code call, so the process terminates normally with
exit code 0 on both paths. An error is a message plus an optional root
cause. -/
def main_fn (r : Except (String × Option String) Unit) : ProcessOutcome :=
  match r with
  | .ok _ => { exitCode := 0, stderrLog := none }
  | .error (msg, source) =>
    { exitCode := 0
      stderrLog := some (msg ++ ", Caused by: " ++ source.getD "N/A") }

/-- Embeds `io::stdin().read_to_string` as used by `read_git_request`
(main.rs 56): consume the whole of stdin, returning its contents and the
(empty) remainder. -/
def read_stdin_to_string (stdin : String) : String × String := (stdin, "")

/-- Modelled from the spec: `GitCredentialMessage::from_str` (git.rs, not in
src/) parses newline-delimited key=value pairs with recognized keys
protocol, host, path, url, username, password; unrecognized lines are
ignored. -/
def message_from_str (s : String) : GitCredentialMessage :=
  (s.splitOn "\n").foldl
    (fun (m : GitCredentialMessage) line =>
      match line.splitOn "=" with
      | key :: rest =>
        let value := String.intercalate "=" rest
        if rest.isEmpty then m
        else if key == "protocol" then { m with protocol := some value }
        else if key == "host" then { m with host := some value }
        else if key == "path" then { m with path := some value }
        else if key == "url" then { m with url := some value }
        else if key == "username" then { m with username := some value }
        else if key == "password" then { m with password := some value }
        else m
      | [] => m)
    { protocol := none, host := none, path := none, url := none,
      username := none, password := none }

/-- Embeds `read_git_request` (main.rs 52-78): read all of stdin, parse it,
and derive the canonical URL — the request's `url` field when present, else
`protocol://host/path` requiring protocol and host. -/
def read_git_request (stdin : String) :
    Except HelperError (GitCredentialMessage × String) :=
  let (contents, _) := read_stdin_to_string stdin
  let git_req := message_from_str contents
  match git_req.url with
  | some url_string => .ok (git_req, url_string)
  | none =>
    match git_req.protocol, git_req.host with
    | some protocol, some host =>
      .ok (git_req, protocol ++ "://" ++ host ++ "/" ++ git_req.path.getD "")
    | _, _ => .error .protocolHostRequired

/-- Observable behaviour of one `erase` run: the result reported to the
caller and what is left unread on stdin. -/
structure EraseRun where
  result : Except HelperError Unit
  stdinRemaining : String
deriving Repr

/-- Embeds `erase_login` (main.rs 653-660): log that erasing is unsupported,
read (and discard) the whole incoming request — `let _ = read_git_request()`
— and report success unconditionally. -/
def erase_login (stdin : String) : EraseRun :=
  let _ := read_git_request stdin
  { result := .ok (), stdinRemaining := (read_stdin_to_string stdin).2 }

/-- Unlock-wait options given on the command line (cli::UnlockOptions):
sleep interval in milliseconds and retry budget, 0 meaning unbounded. -/
structure UnlockOptions where
  interval : Nat
  max_retries : Nat
deriving DecidableEq, Repr

/-- Observable outcome of one TestAssociate round-trip as `associated_databases`
classifies it (main.rs 92-111): a response carrying a success flag, an error
recognized as "database locked", or any other error. A response with no
success flag is `ok false` (the code defaults the flag to false). -/
inductive TasoOutcome
  | ok (success : Bool)
  | errLocked
  | errOther
deriving DecidableEq, Repr

/-- Embeds the inner GetDatabaseHash polling loop of `associated_databases`
(main.rs 122-141). `poll idx` is the outcome of the idx-th GetDatabaseHash
round-trip; `remain` is `remain_retries`; `fuel` bounds the recursion (the
Rust loop is unbounded when `max_retries = 0`), `none` meaning the fuel ran
out. Returns `(remain, nextPollIdx, pollsIssued, pollSucceeded)`. -/
def poll_loop (max_retries : Nat) (poll : Nat → Bool) :
    Nat → Nat → Nat → Option (Nat × Nat × Nat × Bool)
  | remain, idx, 0 =>
    if 0 < remain ∨ max_retries = 0 then none
    else some (remain, idx, 0, false)
  | remain, idx, fuel + 1 =>
    if 0 < remain ∨ max_retries = 0 then
      if poll idx then some (remain, idx + 1, 1, true)
      else
        let remain' := if max_retries = 0 then remain else remain - 1
        match poll_loop max_retries poll remain' (idx + 1) fuel with
        | none => none
        | some (r, i, c, u) => some (r, i, c + 1, u)
    else some (remain, idx, 0, false)

/-- Embeds the outer per-database `loop` of `associated_databases`
(main.rs 91-146). `taso t` is the outcome of the t-th TestAssociate attempt;
`tidx`/`pidx` index TestAssociate attempts and GetDatabaseHash polls; `opts`
is the unlock option (`none` when unlock-waiting was not requested). Returns
`(success, pollsIssued, tasoAttempts)`: `success = false` means the database
is recorded as failed (dropped from the usable set by the filter). -/
def db_loop (opts : Option UnlockOptions) (taso : Nat → TasoOutcome)
    (poll : Nat → Bool) : Nat → Nat → Nat → Nat → Option (Bool × Nat × Nat)
  | _tidx, _pidx, _remain, 0 => none
  | tidx, pidx, remain, fuel + 1 =>
    let t := taso tidx
    let success := match t with | .ok s => s | _ => false
    let database_locked := match t with | .errLocked => true | _ => false
    if success || !database_locked || opts.isNone then some (success, 0, 1)
    else
      match opts with
      | none => some (success, 0, 1)
      | some o =>
        match poll_loop o.max_retries poll remain pidx fuel with
        | none => none
        | some (remain', pidx', polls, _unlocked) =>
          if remain' = 0 ∧ o.max_retries ≠ 0 then some (success, polls, 1)
          else
            match db_loop opts taso poll (tidx + 1) pidx' remain' fuel with
            | none => none
            | some (s, p, ta) => some (s, polls + p, ta + 1)

/-- Runs the per-database unlock-wait loop from its initial state:
`remain_retries` starts at `max_retries` when unlock options were given, 0
otherwise (main.rs 89). -/
def db_usable (opts : Option UnlockOptions) (taso : Nat → TasoOutcome)
    (poll : Nat → Bool) (fuel : Nat) : Option (Bool × Nat × Nat) :=
  db_loop opts taso poll 0 0 (match opts with | none => 0 | some o => o.max_retries) fuel

/-- Peer behaviour: every TestAssociate fails with "database locked". -/
def tasoAlwaysLocked : Nat → TasoOutcome := fun _ => .errLocked

/-- Peer behaviour: the first TestAssociate fails locked, every later one
succeeds. -/
def tasoLockedThenOk : Nat → TasoOutcome := fun t =>
  if t = 0 then .errLocked else .ok true

/-- Peer behaviour: GetDatabaseHash never succeeds. -/
def pollNever : Nat → Bool := fun _ => false

/-- Peer behaviour: GetDatabaseHash succeeds at once. -/
def pollAlways : Nat → Bool := fun _ => true

/-! Helper lemmas shared by the claim theorems. -/

theorem filter_kph_logins_eq (l : List LoginEntry) :
    filter_kph_logins l =
      ((l.filter (fun e => has_kph_false e)).length,
        l.filter (fun e => !has_kph_false e)) := by
  induction l with
  | nil => rfl
  | cons e rest ih =>
    simp only [filter_kph_logins, ih, List.filter_cons]
    by_cases h : has_kph_false e = true
    · simp [h]
    · simp [h]

theorem narrow_by_hint_subset (l : List LoginEntry) (u : String) :
    ∀ e ∈ narrow_by_hint l u, e ∈ l := by
  intro e he
  unfold narrow_by_hint at he
  split at he
  · exact he
  · exact List.mem_of_mem_filter he

theorem narrow_by_hint_ne_nil (l : List LoginEntry) (u : String) (h : l ≠ []) :
    narrow_by_hint l u ≠ [] := by
  unfold narrow_by_hint
  split
  · exact h
  · next hns =>
    intro hc
    rw [hc] at hns
    simp at hns

/-! Claim theorems. -/

/-- C8: for every SetLogin response, `store` treats it as success exactly when
the success flag is present and true and the error field is absent, empty, or
"success"; every other combination — a true flag with any other non-empty
error string, a false flag, or a missing flag — is a failure of the store
operation, reported as a typed error. -/
theorem setlogin_response_success_iff (resp : SetLoginResponse) :
    (interpret_sl_response resp = .ok ↔
      resp.success = some true ∧
        (resp.error = none ∨ resp.error = some "" ∨ resp.error = some "success")) ∧
    (interpret_sl_response resp = .ok ∨ (interpret_sl_response resp).isTypedErr = true) := by
  obtain ⟨success, error, error_code⟩ := resp
  cases success with
  | none => simp [interpret_sl_response, StoreResult.isTypedErr]
  | some s =>
    cases s <;>
      by_cases h1 : error = none <;> by_cases h2 : error = some "" <;>
        by_cases h3 : error = some "success" <;>
      simp_all [interpret_sl_response, StoreResult.isTypedErr]

/-- C9: for every stdin content, `erase` fully consumes the incoming request
and reports success to the caller. -/
theorem erase_consumes_and_succeeds (stdin : String) :
    (erase_login stdin).result = .ok () ∧ (erase_login stdin).stdinRemaining = "" :=
  ⟨rfl, rfl⟩

/-- C2 counterexample: a failing run (here a concrete `real_main` error) still
terminates with exit code 0 — there is no exit-code call in `main` — which
contradicts the claimed non-zero exit code on failure. -/
theorem main_failure_exits_zero :
    (main_fn (.error ("No matching logins found", none))).exitCode = 0 := rfl

/-- C2 (amended): a successful run exits 0 with nothing extra on stderr; a
failing run logs the error together with its root cause ("N/A" when absent)
to the stderr log sink, but the process still exits with code 0, and the
error path writes nothing to stdout. -/
theorem main_exit_behavior (msg : String) (source : Option String) :
    main_fn (.ok ()) = { exitCode := 0, stderrLog := none } ∧
    main_fn (.error (msg, source)) =
      { exitCode := 0,
        stderrLog := some (msg ++ ", Caused by: " ++ source.getD "N/A") } :=
  ⟨rfl, rfl⟩

/-- C6: `get` drops expired entries and entries carrying the "KPH: git" =
"false" opt-out marker (counting the excluded ones), and it errors with
NoMatchingLogin exactly when the candidate set is empty after this
filtering. -/
theorem get_filtering_no_matching_login (git_req : GitCredentialMessage)
    (peerEntries : List LoginEntry) :
    ((get_logins_core git_req peerEntries).result = .err .noMatchingLogin ↔
      (filter_kph_logins (drop_expired peerEntries)).2 = []) ∧
    (get_logins_core git_req peerEntries).kphExcluded =
      ((drop_expired peerEntries).filter (fun e => has_kph_false e)).length := by
  rcases hfk : filter_kph_logins (drop_expired peerEntries) with ⟨k, kept⟩
  have h := filter_kph_logins_eq (drop_expired peerEntries)
  rw [hfk] at h
  simp only [Prod.mk.injEq] at h
  obtain ⟨hk, hkept⟩ := h
  simp only [get_logins_core, hfk]
  cases kept with
  | nil => simp [hk]
  | cons e rest =>
    simp only [List.isEmpty_cons, Bool.false_eq_true, if_false]
    constructor
    · constructor
      · intro hres
        exfalso
        revert hres
        split <;> simp
      · intro hres
        simp at hres
    · split <;> exact hk

/-- C10: every successful `get` emits the incoming request with only the
username and password fields overwritten by the selected entry's login and
password; protocol, host, path and url are echoed back unchanged (the
selected entry comes from the filtered candidate set). -/
theorem get_response_frame (git_req : GitCredentialMessage)
    (peerEntries : List LoginEntry) (resp : GitCredentialMessage)
    (h : (get_logins_core git_req peerEntries).result = .ok resp) :
    ∃ e ∈ (filter_kph_logins (drop_expired peerEntries)).2,
      resp = { git_req with username := some e.login, password := some e.password } := by
  rcases hfk : filter_kph_logins (drop_expired peerEntries) with ⟨k, kept⟩
  simp only [get_logins_core, hfk] at h
  cases kept with
  | nil => simp at h
  | cons e rest =>
    simp only [List.isEmpty_cons, Bool.false_eq_true, if_false] at h
    cases hgu : git_req.username with
    | none =>
      simp only [hgu] at h
      injection h with h
      exact ⟨e, List.mem_cons_self .., h.symm⟩
    | some u =>
      simp only [hgu] at h
      by_cases hc : 1 < (e :: rest).length
      · rw [if_pos hc] at h
        rcases hnn : narrow_by_hint (e :: rest) u with _ | ⟨login, tl⟩
        · rw [hnn] at h; cases h
        · rw [hnn] at h
          injection h with h
          refine ⟨login, ?_, h.symm⟩
          exact narrow_by_hint_subset _ _ login (hnn ▸ List.mem_cons_self ..)
      · rw [if_neg hc] at h
        injection h with h
        exact ⟨e, List.mem_cons_self .., h.symm⟩

/-- C5: when the filtered candidate set has more than one entry and the
request carries a username hint, `get` narrows to entries whose login equals
the hint only when that narrowing is non-empty (an empty narrowing leaves
the set unchanged, which is what `narrow_by_hint` computes); it then returns
the first remaining entry in peer order without erroring, and emits the
ambiguity warning exactly when more than one candidate remains. -/
theorem get_username_hint_narrowing (git_req : GitCredentialMessage)
    (peerEntries : List LoginEntry) (username : String)
    (hu : git_req.username = some username)
    (hlen : 1 < ((filter_kph_logins (drop_expired peerEntries)).2).length) :
    ∃ e rest,
      narrow_by_hint (filter_kph_logins (drop_expired peerEntries)).2 username = e :: rest ∧
      (get_logins_core git_req peerEntries).result =
        .ok { git_req with username := some e.login, password := some e.password } ∧
      ((get_logins_core git_req peerEntries).ambiguityWarning = true ↔ rest ≠ []) := by
  rcases hfk : filter_kph_logins (drop_expired peerEntries) with ⟨k, kept⟩
  rw [hfk] at hlen
  simp only at hlen
  have hne : kept ≠ [] := by
    intro hc; rw [hc] at hlen; simp at hlen
  have hnar : narrow_by_hint kept username ≠ [] := narrow_by_hint_ne_nil kept username hne
  rcases hnn : narrow_by_hint kept username with _ | ⟨e, rest⟩
  · exact absurd hnn hnar
  refine ⟨e, rest, rfl, ?_⟩
  simp only [get_logins_core, hfk, hu]
  cases kept with
  | nil => exact absurd rfl hne
  | cons e0 rest0 =>
    simp only [List.isEmpty_cons, Bool.false_eq_true, if_false, if_pos hlen, hnn]
    constructor
    · trivial
    · cases rest <;> simp

/-- C7: `store` is idempotent: when the first entry found by the resolver
query (expired and opted-out entries removed, restricted to the request
username) already carries the incoming username and password, `store`
succeeds without issuing any SetLogin write. -/
theorem store_idempotent_no_write (git_req : GitCredentialMessage)
    (url username password : String) (peerEntries : List LoginEntry)
    (databases : List Database) (slResp : SetLoginRequest → SetLoginResponse)
    (hu : git_req.username = some username) (hp : git_req.password = some password)
    (e : LoginEntry) (rest : List LoginEntry)
    (hres : (resolve_for_store peerEntries username).2 = e :: rest)
    (hlogin : e.login = username) (hpw : e.password = password) :
    store_core git_req url (some peerEntries) databases slResp = (.ok, []) := by
  have hb : (e.login == username && e.password == password) = true := by
    simp [hlogin, hpw]
  simp [store_core, hu, hp, hres, hb]

/-- C1 (amended): when the resolver query (restricted by username) finds an
existing matching entry whose password differs from the incoming one and more
than one database is configured, `store_login` logs an error and terminates
abnormally through `unimplemented!` — it neither silently picks a database
nor returns a typed error to the caller, and it issues no SetLogin write. -/
theorem store_multidb_update_panics (git_req : GitCredentialMessage)
    (url username password : String) (peerEntries : List LoginEntry)
    (databases : List Database) (slResp : SetLoginRequest → SetLoginResponse)
    (hu : git_req.username = some username) (hp : git_req.password = some password)
    (e : LoginEntry) (rest : List LoginEntry)
    (hres : (resolve_for_store peerEntries username).2 = e :: rest)
    (hpw : e.password ≠ password)
    (hdb : 1 < databases.length) :
    store_core git_req url (some peerEntries) databases slResp = (.panicked, []) := by
  simp only [store_core, hu, hp, hres]
  have hb : (e.login == username && e.password == password) = false := by
    simp [hpw]
  simp [hb, hdb]

/-! Concrete instances used by counterexamples and witnesses. -/

/-- A concrete request carrying username "alice" and password "newpass". -/
def witReqNew : GitCredentialMessage :=
  { protocol := some "https", host := some "example.com", path := none,
    url := some "https://example.com", username := some "alice",
    password := some "newpass" }

/-- A concrete request carrying username "alice" and password "oldpass". -/
def witReqOld : GitCredentialMessage :=
  { witReqNew with password := some "oldpass" }

/-- A concrete stored entry for "alice" with password "oldpass". -/
def witEntry : LoginEntry :=
  { login := "alice", password := "oldpass", uuid := "uuid-1",
    string_fields := none, expired := none }

/-- Two concrete configured databases. -/
def witDbs : List Database :=
  [{ id := "db1", pkey := "k1", group := "git", group_uuid := "g1" },
   { id := "db2", pkey := "k2", group := "git", group_uuid := "g2" }]

/-- A peer that answers every SetLogin with a plain success. -/
def witSlResp : SetLoginRequest → SetLoginResponse := fun _ =>
  { success := some true, error := none, error_code := none }

/-- C1 counterexample: with two databases configured and an existing entry
for the same username under a different password, `store` terminates
abnormally (the `unimplemented!` panic) and does not surface any typed error
to the caller — contradicting the claimed `UnsupportedMultiDatabaseUpdate`
typed failure. -/
theorem store_multidb_update_no_typed_error :
    (store_core witReqNew "https://example.com" (some [witEntry]) witDbs witSlResp).1
        = .panicked ∧
    ((store_core witReqNew "https://example.com" (some [witEntry]) witDbs witSlResp).1).isTypedErr
        = false := by
  constructor <;> decide

/-- C1 witness: the amended theorem applied at the concrete two-database
update scenario. -/
theorem store_multidb_update_panics_witness :
    store_core witReqNew "https://example.com" (some [witEntry]) witDbs witSlResp
      = (.panicked, []) :=
  store_multidb_update_panics witReqNew "https://example.com" "alice" "newpass"
    [witEntry] witDbs witSlResp (by decide) (by decide) witEntry [] (by decide)
    (by decide) (by decide)

/-- C7 witness: the idempotence theorem applied at a concrete request whose
username and password match the stored entry. -/
theorem store_idempotent_no_write_witness :
    store_core witReqOld "https://example.com" (some [witEntry]) witDbs witSlResp
      = (.ok, []) :=
  store_idempotent_no_write witReqOld "https://example.com" "alice" "oldpass"
    [witEntry] witDbs witSlResp (by decide) (by decide) witEntry [] (by decide)
    (by decide) (by decide)

/-- The propositional reading of one allow-list entry's match test in
`verify_caller`: the path is compared against the parent process, the
uid/gid (when specified) against the helper's own current process. -/
theorem caller_filter_matches_iff (c : Caller) (cur par : ProcIdentity) :
    caller_matches cur par c = true ↔
      (c.path = par.path ∧ (∀ u ∈ c.uid, u = cur.uid) ∧ (∀ g ∈ c.gid, g = cur.gid)) := by
  obtain ⟨path, uid, gid⟩ := c
  cases uid <;> cases gid <;> simp [caller_matches, and_assoc]

/-- The helper's own current process identity used in the C3
counterexample: running as uid/gid 0. -/
def witCurrent : ProcIdentity := { path := "/usr/bin/helper", uid := 0, gid := 0 }

/-- The parent process identity used in the C3 counterexample: git running
as uid/gid 1000. -/
def witParent : ProcIdentity := { path := "/usr/bin/git", uid := 1000, gid := 1000 }

/-- An allow-list entry whose path, uid and gid all equal the parent
process's. -/
def witCaller : Caller := { path := "/usr/bin/git", uid := some 1000, gid := some 1000 }

/-- C3 counterexample: the allow-list entry matches the parent process's
path, uid and gid exactly, yet verification fails with CallerDenied — the
code compares the entry's uid/gid against the helper's own process (sysinfo
`proc`), not the parent's (`pproc`), so the claim's success condition is
falsified. -/
theorem verify_caller_parent_uid_denied :
    (witCaller.path = witParent.path ∧ witCaller.uid = some witParent.uid ∧
      witCaller.gid = some witParent.gid) ∧
    verify_caller false { databases := [], callers := [witCaller] }
      (some witCurrent) (some witParent) = .err .callerDenied := by
  constructor <;> decide

/-- C3 (amended): caller verification is a single-pass decision: with an
empty allow-list and (strict mode off or no databases) it skips verification
and succeeds; otherwise, once the process identities resolve, it succeeds
with the parent identity iff some allow-list entry's `executable_path`
equals the parent process's path and its uid/gid, where specified, equal the
helper's own (current) process's uid/gid — not the parent's — and fails
with CallerDenied iff no entry matches. -/
theorem verify_caller_decision (strictCaller : Bool) (config : Config)
    (cur par : ProcIdentity) :
    (config.callers = [] ∧ (strictCaller = false ∨ config.databases = []) →
      ∀ currentProc parentProc,
        verify_caller strictCaller config currentProc parentProc = .ok none) ∧
    (¬(config.callers = [] ∧ (strictCaller = false ∨ config.databases = [])) →
      (verify_caller strictCaller config (some cur) (some par) = .ok (some par) ↔
        ∃ c ∈ config.callers, c.path = par.path ∧
          (∀ u ∈ c.uid, u = cur.uid) ∧ (∀ g ∈ c.gid, g = cur.gid)) ∧
      (verify_caller strictCaller config (some cur) (some par) = .err .callerDenied ↔
        ¬∃ c ∈ config.callers, c.path = par.path ∧
          (∀ u ∈ c.uid, u = cur.uid) ∧ (∀ g ∈ c.gid, g = cur.gid))) := by
  have hcond : (config.callers.length = 0 &&
      (!strictCaller || config.databases.length = 0)) = true ↔
      (config.callers = [] ∧ (strictCaller = false ∨ config.databases = [])) := by
    cases strictCaller <;> simp [List.length_eq_zero]
  have hfilter : (config.callers.filter (caller_matches cur par)).isEmpty = false ↔
      ∃ c ∈ config.callers, c.path = par.path ∧
        (∀ u ∈ c.uid, u = cur.uid) ∧ (∀ g ∈ c.gid, g = cur.gid) := by
    rw [List.isEmpty_eq_false_iff_exists_mem]
    constructor
    · rintro ⟨c, hc⟩
      have hm := List.mem_filter.mp hc
      exact ⟨c, hm.1, (caller_filter_matches_iff c cur par).mp hm.2⟩
    · rintro ⟨c, hc, hm⟩
      exact ⟨c, List.mem_filter.mpr ⟨hc, (caller_filter_matches_iff c cur par).mpr hm⟩⟩
  constructor
  · intro h currentProc parentProc
    unfold verify_caller
    rw [if_pos (hcond.mpr h)]
  · intro h
    have hv : verify_caller strictCaller config (some cur) (some par) =
        if (config.callers.filter (caller_matches cur par)).isEmpty then
          .err .callerDenied
        else .ok (some par) := by
      unfold verify_caller
      rw [if_neg (fun hb => h (hcond.mp hb))]
    rcases hemp : (config.callers.filter (caller_matches cur par)).isEmpty with _ | _
    · have hex := hfilter.mp hemp
      rw [hv, hemp]
      constructor
      · exact iff_of_true rfl hex
      · exact iff_of_false (fun hc => by cases hc) (fun hc => hc hex)
    · have hno : ¬∃ c ∈ config.callers, c.path = par.path ∧
          (∀ u ∈ c.uid, u = cur.uid) ∧ (∀ g ∈ c.gid, g = cur.gid) := by
        intro hex
        rw [hfilter.mpr hex] at hemp
        cases hemp
      rw [hv, hemp]
      constructor
      · exact iff_of_false (fun hc => by cases hc) hno
      · exact iff_of_true rfl hno

/-- C3 witness: the amended decision theorem applied at a concrete
non-bootstrap configuration whose single entry matches by path with uid/gid
unspecified. -/
theorem verify_caller_decision_witness :
    verify_caller false
      { databases := [], callers := [{ path := "/usr/bin/git", uid := none, gid := none }] }
      (some witCurrent) (some witParent) = .ok (some witParent) :=
  ((verify_caller_decision false
      { databases := [], callers := [{ path := "/usr/bin/git", uid := none, gid := none }] }
      witCurrent witParent).2 (by decide)).1.mpr (by decide)

/-- With a bounded budget, a peer whose GetDatabaseHash never succeeds makes
the polling loop issue exactly `remain` polls, driving the counter to zero,
whenever at least `remain` fuel is available. -/
theorem poll_loop_pollNever (max_retries : Nat) (h : max_retries ≠ 0) :
    ∀ remain idx fuel, remain ≤ fuel →
      poll_loop max_retries pollNever remain idx fuel =
        some (0, idx + remain, remain, false) := by
  intro remain
  induction remain with
  | zero =>
    intro idx fuel _
    cases fuel with
    | zero => simp [poll_loop, h]
    | succ f => simp [poll_loop, h]
  | succ r ih =>
    intro idx fuel hf
    cases fuel with
    | zero => exact absurd hf (by omega)
    | succ f =>
      have hr : r ≤ f := by omega
      simp only [poll_loop, pollNever, Bool.false_eq_true, if_false,
        if_pos (Or.inl (Nat.succ_pos r)), if_neg h, Nat.add_sub_cancel,
        ih (idx + 1) f hr]
      have harith : idx + 1 + r = idx + (r + 1) := by omega
      rw [harith]

/-- Bounded never-unlocking scenario: with `max_retries = n > 0` and a peer
that stays locked forever, the per-database loop issues exactly `n`
GetDatabaseHash polls after the single TestAssociate attempt and records the
database as failed. -/
theorem db_loop_bounded_never_unlocks (n interval : Nat) (h : 0 < n) :
    db_usable (some { interval := interval, max_retries := n })
      tasoAlwaysLocked pollNever (n + 1) = some (false, n, 1) := by
  have hn : n ≠ 0 := by omega
  simp only [db_usable, db_loop, tasoAlwaysLocked, Option.isNone_some,
    Bool.not_true, Bool.or_false, Bool.false_or, Bool.false_eq_true, if_false,
    poll_loop_pollNever n hn n 0 n (le_refl n), Nat.zero_add]
  simp [hn]

/-- The polling loop stops immediately once a GetDatabaseHash poll succeeds:
one poll is issued, the counter is not decremented, and the loop reports the
unlock. -/
theorem poll_loop_stops_on_success (max_retries remain idx fuel : Nat)
    (poll : Nat → Bool) (h : 0 < remain ∨ max_retries = 0)
    (hp : poll idx = true) :
    poll_loop max_retries poll remain idx (fuel + 1) =
      some (remain, idx + 1, 1, true) := by
  simp only [poll_loop, if_pos h, if_pos hp]

/-- After a successful GetDatabaseHash poll the outer loop re-attempts
TestAssociate: in the locked-then-unlocked scenario the run ends with one
poll and two TestAssociate attempts, and the database is accepted. -/
theorem db_loop_reattempts_taso (n interval : Nat) (h : 0 < n) :
    db_usable (some { interval := interval, max_retries := n })
      tasoLockedThenOk pollAlways 2 = some (true, 1, 2) := by
  have hn : n ≠ 0 := by omega
  have hnot : ¬(n = 0 ∧ n ≠ 0) := fun hc => hc.2 hc.1
  simp only [db_usable, db_loop, tasoLockedThenOk, pollAlways, Option.isNone_some,
    Bool.not_true, Bool.or_false, Bool.false_or, Bool.false_eq_true, if_false,
    if_pos rfl, if_neg (by omega : ¬(1 = 0)),
    poll_loop_stops_on_success n n 0 0 pollAlways (Or.inl h) rfl]
  rw [if_neg hnot]
  rfl

/-- An unbounded budget (`max_retries = 0`) never decrements the counter:
whatever the polling loop returns, the remaining-retries value is unchanged. -/
theorem poll_loop_unbounded_no_decrement (poll : Nat → Bool) :
    ∀ fuel remain idx r i c u,
      poll_loop 0 poll remain idx fuel = some (r, i, c, u) → r = remain := by
  intro fuel
  induction fuel with
  | zero =>
    intro remain idx r i c u hres
    simp [poll_loop] at hres
  | succ f ih =>
    intro remain idx r i c u hres
    by_cases hp : poll idx = true
    · simp [poll_loop, hp] at hres
      omega
    · simp [poll_loop, hp] at hres
      rcases hrec : poll_loop 0 poll remain (idx + 1) f with _ | ⟨r', i', c', u'⟩
      · rw [hrec] at hres; cases hres
      · rw [hrec] at hres
        simp only [Option.some.injEq, Prod.mk.injEq] at hres
        have := ih remain (idx + 1) r' i' c' u' hrec
        omega

/-- C4: in the unlock-wait loop, a bounded budget `max_retries = n > 0`
issues at most n GetDatabaseHash polls (exactly n when the peer never
unlocks) before the database is recorded as failed; polling stops
immediately once a poll succeeds (one poll, no decrement) and TestAssociate
is then re-attempted; and `max_retries = 0` is an unbounded budget whose
counter is never decremented. -/
theorem unlock_wait_budget :
    (∀ n interval, 0 < n →
      db_usable (some { interval := interval, max_retries := n })
        tasoAlwaysLocked pollNever (n + 1) = some (false, n, 1)) ∧
    (∀ max_retries remain idx fuel (poll : Nat → Bool),
      (0 < remain ∨ max_retries = 0) → poll idx = true →
      poll_loop max_retries poll remain idx (fuel + 1) =
        some (remain, idx + 1, 1, true)) ∧
    (∀ n interval, 0 < n →
      db_usable (some { interval := interval, max_retries := n })
        tasoLockedThenOk pollAlways 2 = some (true, 1, 2)) ∧
    (∀ (poll : Nat → Bool) fuel remain idx r i c u,
      poll_loop 0 poll remain idx fuel = some (r, i, c, u) → r = remain) :=
  ⟨fun n interval h => db_loop_bounded_never_unlocks n interval h,
   fun max_retries remain idx fuel poll h hp =>
     poll_loop_stops_on_success max_retries remain idx fuel poll h hp,
   fun n interval h => db_loop_reattempts_taso n interval h,
   fun poll fuel remain idx r i c u hres =>
     poll_loop_unbounded_no_decrement poll fuel remain idx r i c u hres⟩

/-- C4 witness: the budget theorem applied at concrete scenarios —
`max_retries = 3, interval = 100` with a never-unlocking peer gives exactly
three polls then failure; a successful poll returns immediately without
decrementing; the locked-then-unlocked scenario ends accepted after one poll
and two TestAssociate attempts; an unbounded-budget run leaves the counter
untouched. -/
theorem unlock_wait_budget_witness :
    db_usable (some { interval := 100, max_retries := 3 })
        tasoAlwaysLocked pollNever 4 = some (false, 3, 1) ∧
    poll_loop 3 pollAlways 3 0 6 = some (3, 1, 1, true) ∧
    db_usable (some { interval := 100, max_retries := 3 })
        tasoLockedThenOk pollAlways 2 = some (true, 1, 2) ∧
    5 = 5 :=
  ⟨unlock_wait_budget.1 3 100 (by decide),
   unlock_wait_budget.2.1 3 3 0 5 pollAlways (by decide) (by decide),
   unlock_wait_budget.2.2.1 3 100 (by decide),
   unlock_wait_budget.2.2.2 pollAlways 1 5 0 5 1 1 true (by decide)⟩

/-- A concrete `get` request whose username hint "zed" matches no stored
entry. -/
def witGetReq : GitCredentialMessage :=
  { protocol := some "https", host := some "example.com", path := none,
    url := some "https://example.com", username := some "zed", password := none }

/-- A concrete stored entry for "alice". -/
def witAlice : LoginEntry :=
  { login := "alice", password := "p1", uuid := "ua", string_fields := none,
    expired := none }

/-- A concrete stored entry for "bob". -/
def witBob : LoginEntry :=
  { login := "bob", password := "p2", uuid := "ub", string_fields := none,
    expired := none }

/-- C5 witness: the narrowing theorem applied where two candidates remain and
the hint "zed" matches neither — the set stays unchanged, the first entry in
peer order is returned and the ambiguity warning fires. -/
theorem get_username_hint_narrowing_witness :
    ∃ e rest,
      narrow_by_hint (filter_kph_logins (drop_expired [witAlice, witBob])).2 "zed"
          = e :: rest ∧
      (get_logins_core witGetReq [witAlice, witBob]).result =
        .ok { witGetReq with username := some e.login, password := some e.password } ∧
      ((get_logins_core witGetReq [witAlice, witBob]).ambiguityWarning = true ↔
        rest ≠ []) :=
  get_username_hint_narrowing witGetReq [witAlice, witBob] "zed" rfl (by decide)

/-- C10 witness: the frame theorem applied at a concrete successful `get`,
showing the emitted response is the request with only username/password
overwritten from a filtered entry. -/
theorem get_response_frame_witness :
    ∃ e ∈ (filter_kph_logins (drop_expired [witAlice])).2,
      { witGetReq with username := some "alice", password := some "p1" } =
        { witGetReq with username := some e.login, password := some e.password } :=
  get_response_frame witGetReq [witAlice]
    { witGetReq with username := some "alice", password := some "p1" } (by decide)

end GitKpxc
